import Mathlib

/-!
Verification of the EcoAlpha ESG portfolio pipeline.

Shallow embedding of the algorithmic parts of the repository:
  - `src/extractingesg.py` : signal fusion, peer normalization, keyword
    bucket scoring, news recency decay;
  - `src/logicopt.py`      : ESG tilt of expected returns, covariance;
  - `src/scorecomputation.py` : sentiment-count ESG score;
  - `main.py`              : the optimize / fallback orchestration.

Python floats are modelled as exact rationals, except where the source
uses the exponential function, where reals are used.  Python dicts are
modelled as association lists with a `getD`-style default lookup.
-/

/-! ## extractingesg.py : constants (lines 35-43) -/

def SUSTAIN_WEIGHT : ℚ := 0.50

def NEWS_WEIGHT : ℚ := 0.35

def FILINGS_WEIGHT : ℚ := 0.15

def DECAY_DAYS : ℚ := 21

def E_KEYWORDS : List String :=
  ["environment", "climate", "emission", "carbon", "sustainab", "renewable", "green", "energy"]

def S_KEYWORDS : List String :=
  ["social", "community", "diversity", "inclusion", "labor", "employee", "human rights", "safety"]

def G_KEYWORDS : List String :=
  ["governance", "board", "audit", "ethic", "compliance", "transparen", "shareholder", "corruption"]

/-! ## extractingesg.py : `_norm01` (lines 49-52) -/

/-- Embeds `_norm01(v, vmin, vmax)`: returns 0.5 when `vmax <= vmin`,
otherwise `(v - vmin) / (vmax - vmin)`. -/
def norm01 (v vmin vmax : ℚ) : ℚ :=
  if vmax ≤ vmin then 0.5 else (v - vmin) / (vmax - vmin)

/-- Pandas `series.min()` over the list of values of one pillar column
(defined as 0 on the empty list, which never arises in `run_esg_analysis`
since it returns early on empty input). -/
def listMin : List ℚ → ℚ
  | [] => 0
  | x :: xs => xs.foldl min x

/-- Pandas `series.max()` over the list of values of one pillar column. -/
def listMax : List ℚ → ℚ
  | [] => 0
  | x :: xs => xs.foldl max x

/-- Embeds the second pass of `run_esg_analysis` (lines 228-231) for one
pillar column: every fused value is rescaled by `_norm01` against the
column minimum and maximum. -/
def normalizePillar (vs : List ℚ) : List ℚ :=
  vs.map (fun v => norm01 v (listMin vs) (listMax vs))

/-! ## extractingesg.py : signal fusion (`run_esg_analysis` first pass, lines 214-225) -/

/-- A per-ticker raw signal bundle as produced by `download_and_extract`
or `build_mock_raw`: a partial sustainability dict (any subset of the
keys "E","S","G"), and optional news / filing triples.  `run_esg_analysis`
reads each field with a neutral default (`src.get(...)`), so absent
fields are `none` here. -/
structure RawBundle where
  sustain : List (String × ℚ)
  news : Option (ℚ × ℚ × ℚ)
  filing : Option (ℚ × ℚ × ℚ)

/-- Python `dict.get(key, 0.5)` on the sustainability sub-dict. -/
def sustainGet (sust : List (String × ℚ)) (key : String) : ℚ :=
  (sust.lookup key).getD 0.5

/-- Embeds the fusion step of `run_esg_analysis` (lines 217-225): each
sustainability sub-field defaults individually to 0.5, a missing news or
filing source defaults to the neutral triple, and the three sources are
combined with the fixed weights 0.50 / 0.35 / 0.15. -/
def fuse (b : RawBundle) : ℚ × ℚ × ℚ :=
  let e_sust := sustainGet b.sustain "E"
  let s_sust := sustainGet b.sustain "S"
  let g_sust := sustainGet b.sustain "G"
  let news := b.news.getD (0.5, 0.5, 0.5)
  let filing := b.filing.getD (0.5, 0.5, 0.5)
  (SUSTAIN_WEIGHT * e_sust + NEWS_WEIGHT * news.1 + FILINGS_WEIGHT * filing.1,
   SUSTAIN_WEIGHT * s_sust + NEWS_WEIGHT * news.2.1 + FILINGS_WEIGHT * filing.2.1,
   SUSTAIN_WEIGHT * g_sust + NEWS_WEIGHT * news.2.2 + FILINGS_WEIGHT * filing.2.2)

/-! ## logicopt.py : ESG tilt (lines 34-38) -/

/-- Default of the `min_avg_esg` parameter of `optimize_portfolio`. -/
def min_avg_esg_default : ℚ := 0.6

/-- Embeds the tilt loop of `optimize_portfolio` (lines 34-37): the
expected return of a ticker whose ESG score is strictly below the
threshold is multiplied by 0.8, all others are left unchanged. -/
def adjust_mu (esg : ℚ) (min_avg_esg : ℚ) (mu : ℚ) : ℚ :=
  if esg < min_avg_esg then mu * 0.8 else mu

/-! ## scorecomputation.py : `compute_esg_score` (lines 6-18) -/

/-- Python `sentiment_counts.get(key, 0)`. -/
def countsGet (d : List (String × ℚ)) (key : String) : ℚ :=
  (d.lookup key).getD 0

/-- Python `round(x, 4)`: the nearest multiple of 1/10000 (the source
applies it to floats, where ties are resolved by the binary
representation; ties are immaterial to the claims checked here). -/
def round4 (x : ℚ) : ℚ := (round (x * 10000) : ℚ) / 10000

/-- Embeds `compute_esg_score(sentiment_counts)`: reads the POSITIVE /
NEUTRAL / NEGATIVE counts with default 0, returns 0.0 when the total is
0, otherwise the weighted fraction rounded to 4 decimals. -/
def compute_esg_score (d : List (String × ℚ)) : ℚ :=
  let pos := countsGet d "POSITIVE"
  let neu := countsGet d "NEUTRAL"
  let neg := countsGet d "NEGATIVE"
  let total := pos + neu + neg
  if total = 0 then 0
  else round4 ((1 * pos + 0.5 * neu + 0 * neg) / total)

/-! ## extractingesg.py : `_headline_to_bucket_scores` (lines 54-74) -/

/-- Python `headline.lower()` at the character level (the keyword
vocabularies are pure ASCII, where `Char.toLower` agrees with Python). -/
def lowerChars (s : String) : List Char := s.toList.map Char.toLower

/-- Python `k in h_low`: substring containment, on character lists. -/
def containsKw (h_low : List Char) (k : String) : Bool :=
  decide (k.toList <:+: h_low)

/-- Embeds `_headline_to_bucket_scores(headline)`.  The VADER compound
sentiment of the headline (in [-1,1]) is the input `sent`: the sentiment
model itself is an external collaborator excluded from the core.  The
keyword bucket tests and the branch structure follow the source: if no
vocabulary matches, each pillar receives `0.33 * s01` where
`s01 = (sent+1)/2`; otherwise each matched pillar receives `s01` and the
others 0. -/
def headline_to_bucket_scores (headline : String) (sent : ℚ) : ℚ × ℚ × ℚ :=
  let h_low := lowerChars headline
  let s01 := (sent + 1) / 2
  let has_e := E_KEYWORDS.any (fun k => containsKw h_low k)
  let has_s := S_KEYWORDS.any (fun k => containsKw h_low k)
  let has_g := G_KEYWORDS.any (fun k => containsKw h_low k)
  if !(has_e || has_s || has_g) then (0.33 * s01, 0.33 * s01, 0.33 * s01)
  else ((if has_e then s01 else 0), (if has_s then s01 else 0), (if has_g then s01 else 0))

/-! ## extractingesg.py : `_decay_weight` and `_fetch_news_esg` (lines 76-80, 138-169)

The source uses `math.exp`, so this part of the embedding lives in `ℝ`. -/

/-- Embeds `_decay_weight(age_days)`: a negative age is clamped to zero,
then the weight is `exp(-age_days / DECAY_DAYS)` with `DECAY_DAYS = 21`. -/
noncomputable def decay_weight (age_days : ℝ) : ℝ :=
  let a := if age_days < 0 then 0 else age_days
  Real.exp (-a / (DECAY_DAYS : ℝ))

/-- One news item as consumed by the scoring loop of `_fetch_news_esg`:
the E/S/G bucket scores of its title (produced upstream by
`_headline_to_bucket_scores`) and its age in days (already clamped to be
non-negative at line 159, and clamped again inside `_decay_weight`).
The list is most-recent-first, as delivered by the news provider. -/
structure NewsItem where
  e : ℝ
  s : ℝ
  g : ℝ
  age : ℝ

/-- One iteration of the accumulation loop of `_fetch_news_esg`
(lines 155-165): adds the decay-weighted bucket scores and the weight. -/
noncomputable def newsStep (acc : ℝ × ℝ × ℝ × ℝ) (i : NewsItem) : ℝ × ℝ × ℝ × ℝ :=
  let w := decay_weight i.age
  (acc.1 + w * i.e, acc.2.1 + w * i.s, acc.2.2.1 + w * i.g, acc.2.2.2 + w)

/-- The accumulation loop of `_fetch_news_esg` over a list of items,
starting from `e_acc = s_acc = g_acc = w_acc = 0`. -/
noncomputable def newsAccum (items : List NewsItem) : ℝ × ℝ × ℝ × ℝ :=
  items.foldl newsStep (0, 0, 0, 0)

/-- Embeds `_fetch_news_esg`: neutral on an empty news list, otherwise
the loop runs over `news[:40]` and the accumulators are divided by the
total weight, with a neutral guard when the total weight is zero. -/
noncomputable def fetch_news_esg (news : List NewsItem) : ℝ × ℝ × ℝ :=
  if news.isEmpty then (0.5, 0.5, 0.5)
  else
    let acc := newsAccum (news.take 40)
    if acc.2.2.2 = 0 then (0.5, 0.5, 0.5)
    else (acc.1 / acc.2.2.2, acc.2.1 / acc.2.2.2, acc.2.2.1 / acc.2.2.2)

/-- Specification-side reading of the same computation: the total decay
weight of the at most 40 most recent items. -/
noncomputable def newsWeightSum (items : List NewsItem) : ℝ :=
  ((items.take 40).map (fun i => decay_weight i.age)).sum

/-- Specification-side reading: the decay-weighted sum of one pillar
selector over the at most 40 most recent items. -/
noncomputable def newsWeighted (f : NewsItem → ℝ) (items : List NewsItem) : ℝ :=
  ((items.take 40).map (fun i => decay_weight i.age * f i)).sum

/-! ## main.py : the optimize / fallback orchestration (lines 39-44)

`run_pipeline` first calls
`logicopt.optimize_portfolio(price_df, esg_scores=esg_results)` and, on
any exception, falls back to `logicopt.optimize_portfolio(price_df)`.
Whether either call even reaches the body of `optimize_portfolio` is
decided by Python argument binding against the signature
`optimize_portfolio(prices, esg_df, min_avg_esg=0.6)` (logicopt.py
line 22), which is embedded here. -/

/-- A Python function signature: positional-or-keyword parameter names in
order, of which the first `numRequired` have no default value. -/
structure PySig where
  params : List String
  numRequired : Nat

/-- Python argument binding for a call with `numPos` positional arguments
and the keyword-argument names `kwargs`: binding succeeds iff there are
not more positional arguments than parameters, every keyword name is a
parameter name, no keyword repeats a positionally bound parameter, and
every required parameter is bound. -/
def bindCall (sig : PySig) (numPos : Nat) (kwargs : List String) : Bool :=
  decide (numPos ≤ sig.params.length) &&
  kwargs.all (fun k => sig.params.contains k) &&
  kwargs.all (fun k => !(sig.params.take numPos).contains k) &&
  ((sig.params.take sig.numRequired).drop numPos).all (fun p => kwargs.contains p)

/-- The signature of `optimize_portfolio` at logicopt.py line 22:
`prices` and `esg_df` are required, `min_avg_esg` has a default. -/
def optimize_portfolio_sig : PySig :=
  { params := ["prices", "esg_df", "min_avg_esg"], numRequired := 2 }

/-! ## logicopt.py : the tilted inputs of the final EfficientFrontier (lines 24-39) -/

/-- Pandas column selection `[t for t in prices.columns if t in esg_df.index]`
(line 24). -/
def selectTickers (columns : List String) (esgIndex : List String) : List String :=
  columns.filter (fun t => esgIndex.contains t)

/-- Pandas `prices[tickers]` (line 26): the per-ticker price columns
restricted, in the order of `tickers`. -/
def restrictPrices (prices : List (String × List ℚ)) (tickers : List String) :
    List (String × List ℚ) :=
  tickers.filterMap (fun t => (prices.lookup t).map (fun col => (t, col)))

/-- The pair (expected returns, covariance) handed to the final
`EfficientFrontier(adjusted_mu, S)` at line 39, with the return and risk
estimators (`mean_historical_return`, `CovarianceShrinkage(...).ledoit_wolf()`,
both third-party library calls) abstracted as function parameters:
lines 24-39 of logicopt.py restrict the prices to the tickers present in
the ESG index, estimate `mu` and `S` from the restricted prices, tilt
each entry of `mu` by `adjust_mu` against that ticker's ESG score, and
pass the tilted `mu` together with the untouched `S`. -/
def optimize_portfolio_inputs {Cov : Type}
    (mean : List (String × List ℚ) → List (String × ℚ))
    (shrink : List (String × List ℚ) → Cov)
    (prices : List (String × List ℚ))
    (esg : List (String × ℚ))
    (min_avg : ℚ) : List (String × ℚ) × Cov :=
  let tickers := selectTickers (prices.map Prod.fst) (esg.map Prod.fst)
  let p := restrictPrices prices tickers
  let mu := mean p
  let S := shrink p
  let adjusted := mu.map (fun tv => (tv.1, adjust_mu ((esg.lookup tv.1).getD 0) min_avg tv.2))
  (adjusted, S)

/-! ## Spec-modelled components

The return/risk estimation and the weight cleaning are performed by the
third-party `pypfopt` library (logicopt.py lines 29-30 and 40-41), whose
code is not part of this repository.  They are modelled here from the
specification text. -/

/-- Modelled from the spec: the failure mode of `ReturnRiskEstimator`. -/
inductive EstimateError where
  | insufficientData : EstimateError
deriving DecidableEq

/-- One ticker's price history: ordered observation dates (as numbers)
and the corresponding prices. -/
structure TickerSeries where
  ticker : String
  dates : List ℚ
  prices : List ℚ

/-- Simple returns of a price series (`pct_change`): one entry per
consecutive pair of prices. -/
def returnsOf (prices : List ℚ) : List ℚ :=
  (prices.zip prices.tail).map (fun pq => pq.2 / pq.1 - 1)

/-- Annualized historical mean return of one series (252 trading days). -/
def annualizedMean (s : TickerSeries) : ℚ :=
  252 * ((returnsOf s.prices).sum / (returnsOf s.prices).length)

/-- Whether the date ranges of all series overlap: the latest start is
no later than the earliest end. -/
def overlapOk (series : List TickerSeries) : Bool :=
  decide (listMax (series.map (fun s => s.dates.headD 0)) ≤
          listMin (series.map (fun s => (s.dates.getLast?).getD 0)))

/-- Modelled from the spec: `ReturnRiskEstimator.estimate` (performed in
the source by the pypfopt calls at logicopt.py lines 29-30, whose code is
not in this repository).  Per the spec it fails with
`InsufficientDataError` when any ticker has fewer than 2 observations or
when the tickers have no overlapping date range, and otherwise returns
the annualized historical mean return per ticker. -/
def estimate (series : List TickerSeries) : Except EstimateError (List (String × ℚ)) :=
  if series.any (fun s => s.dates.length < 2) then .error .insufficientData
  else if !(overlapOk series) then .error .insufficientData
  else .ok (series.map (fun s => (s.ticker, annualizedMean s)))

/-- Modelled from the spec: the weight cleaning of `FrontierOptimizer`
(performed in the source by `ef.clean_weights()` at logicopt.py line 41,
pypfopt library code not in this repository).  Per the spec, entries
below the epsilon threshold are zeroed and the remainder is renormalized
to sum to 1. -/
def clean_weights (eps : ℚ) (w : List ℚ) : List ℚ :=
  let z := w.map (fun x => if x < eps then 0 else x)
  let s := z.sum
  if s = 0 then z else z.map (fun x => x / s)

/-! ## Helper lemmas -/

theorem foldl_min_le_init (xs : List ℚ) (x : ℚ) : xs.foldl min x ≤ x := by
  induction xs generalizing x with
  | nil => exact le_refl x
  | cons a t ih => exact le_trans (ih (min x a)) (min_le_left x a)

theorem foldl_min_le_mem (xs : List ℚ) (x : ℚ) {y : ℚ} (h : y ∈ xs) :
    xs.foldl min x ≤ y := by
  induction xs generalizing x with
  | nil => cases h
  | cons a t ih =>
    rcases List.mem_cons.1 h with rfl | hy
    · exact le_trans (foldl_min_le_init t (min x y)) (min_le_right x y)
    · exact ih (min x a) hy

theorem foldl_min_mem (xs : List ℚ) (x : ℚ) :
    xs.foldl min x = x ∨ xs.foldl min x ∈ xs := by
  induction xs generalizing x with
  | nil => exact Or.inl rfl
  | cons a t ih =>
    rcases ih (min x a) with h | h
    · rcases min_choice x a with hm | hm
      · exact Or.inl (by rw [List.foldl_cons, h, hm])
      · exact Or.inr (by rw [List.foldl_cons, h, hm]; exact List.mem_cons_self a t)
    · exact Or.inr (List.mem_cons_of_mem a h)

theorem init_le_foldl_max (xs : List ℚ) (x : ℚ) : x ≤ xs.foldl max x := by
  induction xs generalizing x with
  | nil => exact le_refl x
  | cons a t ih => exact le_trans (le_max_left x a) (ih (max x a))

theorem mem_le_foldl_max (xs : List ℚ) (x : ℚ) {y : ℚ} (h : y ∈ xs) :
    y ≤ xs.foldl max x := by
  induction xs generalizing x with
  | nil => cases h
  | cons a t ih =>
    rcases List.mem_cons.1 h with rfl | hy
    · exact le_trans (le_max_right x y) (init_le_foldl_max t (max x y))
    · exact ih (max x a) hy

theorem foldl_max_mem (xs : List ℚ) (x : ℚ) :
    xs.foldl max x = x ∨ xs.foldl max x ∈ xs := by
  induction xs generalizing x with
  | nil => exact Or.inl rfl
  | cons a t ih =>
    rcases ih (max x a) with h | h
    · rcases max_choice x a with hm | hm
      · exact Or.inl (by rw [List.foldl_cons, h, hm])
      · exact Or.inr (by rw [List.foldl_cons, h, hm]; exact List.mem_cons_self a t)
    · exact Or.inr (List.mem_cons_of_mem a h)

theorem listMin_mem {vs : List ℚ} (h : vs ≠ []) : listMin vs ∈ vs := by
  match vs with
  | [] => exact absurd rfl h
  | x :: xs =>
    rcases foldl_min_mem xs x with he | he
    · rw [listMin, he]; exact List.mem_cons_self x xs
    · exact List.mem_cons_of_mem x he

theorem listMin_le {vs : List ℚ} {v : ℚ} (h : v ∈ vs) : listMin vs ≤ v := by
  match vs with
  | x :: xs =>
    rcases List.mem_cons.1 h with rfl | hv
    · exact foldl_min_le_init xs v
    · exact foldl_min_le_mem xs x hv

theorem listMax_mem {vs : List ℚ} (h : vs ≠ []) : listMax vs ∈ vs := by
  match vs with
  | [] => exact absurd rfl h
  | x :: xs =>
    rcases foldl_max_mem xs x with he | he
    · rw [listMax, he]; exact List.mem_cons_self x xs
    · exact List.mem_cons_of_mem x he

theorem le_listMax {vs : List ℚ} {v : ℚ} (h : v ∈ vs) : v ≤ listMax vs := by
  match vs with
  | x :: xs =>
    rcases List.mem_cons.1 h with rfl | hv
    · exact init_le_foldl_max xs v
    · exact mem_le_foldl_max xs x hv

theorem lookup_eq_none_of_not_mem {β : Type} {key : String} {l : List (String × β)}
    (h : key ∉ l.map Prod.fst) : List.lookup key l = none := by
  induction l with
  | nil => rfl
  | cons a t ih =>
    simp only [List.map_cons, List.mem_cons] at h
    push_neg at h
    rw [List.lookup]
    have hb : (key == a.1) = false := by simp [h.1]
    rw [hb]
    exact ih h.2

theorem sum_map_div (l : List ℚ) (c : ℚ) :
    (l.map (fun x => x / c)).sum = l.sum / c := by
  induction l with
  | nil => simp
  | cons a t ih => simp [ih, add_div]

/-! ## Claim theorems -/

/-- Claim C3 (code evaluation at the failing input): in `run_pipeline`
(main.py lines 39-44), the ESG-aware call
`optimize_portfolio(price_df, esg_scores=esg_results)` fails Python
argument binding against the signature
`optimize_portfolio(prices, esg_df, min_avg_esg=0.6)` because
`esg_scores` is not a parameter name, and the fallback call
`optimize_portfolio(price_df)` also fails binding because the required
parameter `esg_df` is unbound.  Hence the fallback never reruns
estimation and optimization with untilted expected returns: it raises a
TypeError before entering the function body.  The third conjunct shows
that a call with both positional arguments would bind, so the signature
itself is callable. -/
theorem fallback_call_fails_binding :
    bindCall optimize_portfolio_sig 1 ["esg_scores"] = false ∧
    bindCall optimize_portfolio_sig 1 [] = false ∧
    bindCall optimize_portfolio_sig 2 [] = true := by
  decide

/-- Claim C5: the ESG tilt multiplies a ticker's expected return by 0.8
exactly when its composite ESG score is strictly below the threshold 0.6
and leaves it unchanged otherwise; composite 0.5 with mu = 0.10 yields
0.08, and composite 0.7 with mu = 0.10 leaves 0.10. -/
theorem esg_tilt_penalty (esg mu : ℚ) :
    (esg < 0.6 → adjust_mu esg min_avg_esg_default mu = 0.8 * mu) ∧
    (0.6 ≤ esg → adjust_mu esg min_avg_esg_default mu = mu) ∧
    adjust_mu 0.5 min_avg_esg_default 0.10 = 0.08 ∧
    adjust_mu 0.7 min_avg_esg_default 0.10 = 0.10 := by
  refine ⟨fun h => ?_, fun h => ?_, ?_, ?_⟩
  · rw [adjust_mu, min_avg_esg_default, if_pos h, mul_comm]
  · rw [adjust_mu, min_avg_esg_default, if_neg (not_lt.2 h)]
  · rw [adjust_mu, min_avg_esg_default, if_pos (by norm_num)]; norm_num
  · rw [adjust_mu, min_avg_esg_default, if_neg (by norm_num)]

/-- Witness for C5 at the concrete scenario inputs. -/
theorem esg_tilt_penalty_witness :
    adjust_mu 0.5 min_avg_esg_default 0.10 = 0.8 * 0.10 ∧
    adjust_mu 0.7 min_avg_esg_default 0.10 = 0.10 :=
  ⟨(esg_tilt_penalty 0.5 0.10).1 (by norm_num),
   (esg_tilt_penalty 0.7 0.10).2.1 (by norm_num)⟩

/-- Claim C8: the ESG tilt changes only the expected-return vector.  The
covariance handed to the final `EfficientFrontier` equals the shrinkage
estimate computed from the (restricted) price history, and it is the
same for any two ESG score assignments over the same ticker index. -/
theorem tilt_leaves_covariance (Cov : Type)
    (mean : List (String × List ℚ) → List (String × ℚ))
    (shrink : List (String × List ℚ) → Cov)
    (prices : List (String × List ℚ))
    (esg1 esg2 : List (String × ℚ)) (min_avg : ℚ)
    (hidx : esg1.map Prod.fst = esg2.map Prod.fst) :
    (optimize_portfolio_inputs mean shrink prices esg1 min_avg).2 =
      shrink (restrictPrices prices
        (selectTickers (prices.map Prod.fst) (esg1.map Prod.fst))) ∧
    (optimize_portfolio_inputs mean shrink prices esg1 min_avg).2 =
      (optimize_portfolio_inputs mean shrink prices esg2 min_avg).2 := by
  refine ⟨rfl, ?_⟩
  unfold optimize_portfolio_inputs
  rw [hidx]

/-- Witness for C8: two ESG assignments over the same single-ticker index
with different scores (0.2 vs 0.9) produce the same covariance, equal to
the shrinkage estimate of the restricted price table. -/
theorem tilt_leaves_covariance_witness :
    (optimize_portfolio_inputs (fun _ => []) (fun p => p)
        [("A", [100, 101])] [("A", 0.2)] 0.6).2 =
      (fun p => p) (restrictPrices [("A", [100, 101])]
        (selectTickers (List.map Prod.fst [("A", (List.cons 100 [101] : List ℚ))])
          (List.map Prod.fst [("A", (0.2 : ℚ))]))) ∧
    (optimize_portfolio_inputs (fun _ => []) (fun p => p)
        [("A", [100, 101])] [("A", 0.2)] 0.6).2 =
      (optimize_portfolio_inputs (fun _ => []) (fun p => p)
        [("A", [100, 101])] [("A", 0.9)] 0.6).2 :=
  tilt_leaves_covariance (List (String × List ℚ)) (fun _ => []) (fun p => p)
    [("A", [100, 101])] [("A", 0.2)] [("A", 0.9)] 0.6 rfl

theorem round4_nonneg {x : ℚ} (hx : 0 ≤ x) : 0 ≤ round4 x := by
  unfold round4
  apply div_nonneg _ (by norm_num)
  have h0 : (0 : ℤ) ≤ round (x * 10000) := by
    rw [round_eq]
    exact Int.le_floor.2 (by push_cast; linarith)
  exact_mod_cast h0

theorem round4_le_one {x : ℚ} (hx : x ≤ 1) : round4 x ≤ 1 := by
  unfold round4
  rw [div_le_one (by norm_num)]
  have h1 : round (x * 10000) ≤ 10000 := by
    rw [round_eq]
    calc Int.floor (x * 10000 + 1 / 2) ≤ Int.floor ((20001 : ℚ) / 2) :=
          Int.floor_le_floor (by linarith)
      _ = 10000 := by norm_num
  exact_mod_cast h1

/-- Claim C10: `compute_esg_score` never divides by zero: a zero total
(including all-missing keys) yields exactly 0.0, and non-negative counts
with a positive total yield the weighted fraction rounded to 4 decimals,
which lies in [0, 1]. -/
theorem compute_esg_score_safe (d : List (String × ℚ)) :
    (countsGet d "POSITIVE" + countsGet d "NEUTRAL" + countsGet d "NEGATIVE" = 0 →
      compute_esg_score d = 0) ∧
    (0 ≤ countsGet d "POSITIVE" → 0 ≤ countsGet d "NEUTRAL" →
     0 ≤ countsGet d "NEGATIVE" →
     0 < countsGet d "POSITIVE" + countsGet d "NEUTRAL" + countsGet d "NEGATIVE" →
      compute_esg_score d =
        round4 ((1 * countsGet d "POSITIVE" + 0.5 * countsGet d "NEUTRAL" +
                 0 * countsGet d "NEGATIVE") /
                (countsGet d "POSITIVE" + countsGet d "NEUTRAL" + countsGet d "NEGATIVE")) ∧
      0 ≤ compute_esg_score d ∧ compute_esg_score d ≤ 1) := by
  set pos := countsGet d "POSITIVE" with hpos
  set neu := countsGet d "NEUTRAL" with hneu
  set neg := countsGet d "NEGATIVE" with hneg
  constructor
  · intro h0
    unfold compute_esg_score
    rw [← hpos, ← hneu, ← hneg]
    simp [h0]
  · intro hp hn hg ht
    have heq : compute_esg_score d = round4 ((1 * pos + 0.5 * neu + 0 * neg) / (pos + neu + neg)) := by
      unfold compute_esg_score
      rw [← hpos, ← hneu, ← hneg]
      simp only [if_neg (ne_of_gt ht)]
    refine ⟨heq, ?_, ?_⟩
    · rw [heq]
      apply round4_nonneg
      apply div_nonneg _ (le_of_lt ht)
      linarith
    · rw [heq]
      apply round4_le_one
      rw [div_le_one ht]
      linarith

/-- Witness for C10: the empty mapping has total 0 and scores 0.0, and
the mapping POSITIVE=3, NEGATIVE=1 scores round4(3/4) = 0.75, inside
[0,1]. -/
theorem compute_esg_score_safe_witness :
    compute_esg_score [] = 0 ∧
    (compute_esg_score [("POSITIVE", 3), ("NEGATIVE", 1)] =
      round4 ((1 * countsGet [("POSITIVE", 3), ("NEGATIVE", 1)] "POSITIVE" +
               0.5 * countsGet [("POSITIVE", 3), ("NEGATIVE", 1)] "NEUTRAL" +
               0 * countsGet [("POSITIVE", 3), ("NEGATIVE", 1)] "NEGATIVE") /
              (countsGet [("POSITIVE", 3), ("NEGATIVE", 1)] "POSITIVE" +
               countsGet [("POSITIVE", 3), ("NEGATIVE", 1)] "NEUTRAL" +
               countsGet [("POSITIVE", 3), ("NEGATIVE", 1)] "NEGATIVE")) ∧
      0 ≤ compute_esg_score [("POSITIVE", 3), ("NEGATIVE", 1)] ∧
      compute_esg_score [("POSITIVE", 3), ("NEGATIVE", 1)] ≤ 1) := by
  have e1 : countsGet [("POSITIVE", 3), ("NEGATIVE", 1)] "POSITIVE" = 3 := by decide
  have e2 : countsGet [("POSITIVE", 3), ("NEGATIVE", 1)] "NEUTRAL" = 0 := by decide
  have e3 : countsGet [("POSITIVE", 3), ("NEGATIVE", 1)] "NEGATIVE" = 1 := by decide
  constructor
  · exact (compute_esg_score_safe []).1 (by simp [countsGet])
  · exact (compute_esg_score_safe [("POSITIVE", 3), ("NEGATIVE", 1)]).2
      (by rw [e1]; norm_num) (by rw [e2]) (by rw [e3]; norm_num)
      (by rw [e1, e2, e3]; norm_num)

theorem sustainGet_nil (key : String) : sustainGet [] key = 0.5 := rfl

theorem sustainGet_cons (k key : String) (x : ℚ) (t : List (String × ℚ)) :
    sustainGet ((k, x) :: t) key = if key = k then x else sustainGet t key := by
  unfold sustainGet
  rw [List.lookup]
  by_cases h : key = k
  · subst h
    simp
  · have hb : (key == k) = false := by simp [h]
    rw [hb]
    simp [h]

theorem sustainGet_not_mem {key : String} {t : List (String × ℚ)}
    (h : key ∉ t.map Prod.fst) : sustainGet t key = 0.5 := by
  rw [sustainGet, lookup_eq_none_of_not_mem h]
  rfl

/-- Claim C1: the fused score of each pillar is exactly
0.50 * sustain + 0.35 * news + 0.15 * filing; the three weights sum to 1;
a sustainability sub-field missing from the bundle behaves exactly as the
same bundle with that sub-field present at 0.5; and the bundle with
sustainability 0.8 on all pillars and neutral news / filing fuses to 0.65
on every pillar. -/
theorem fuse_weighted_sum (e s g : ℚ) (n f : ℚ × ℚ × ℚ) (sust : List (String × ℚ)) :
    SUSTAIN_WEIGHT + NEWS_WEIGHT + FILINGS_WEIGHT = 1 ∧
    fuse ⟨[("E", e), ("S", s), ("G", g)], some n, some f⟩ =
      (0.50 * e + 0.35 * n.1 + 0.15 * f.1,
       0.50 * s + 0.35 * n.2.1 + 0.15 * f.2.1,
       0.50 * g + 0.35 * n.2.2 + 0.15 * f.2.2) ∧
    (∀ k ∈ (["E", "S", "G"] : List String), k ∉ sust.map Prod.fst →
      fuse ⟨sust, some n, some f⟩ = fuse ⟨(k, 0.5) :: sust, some n, some f⟩) ∧
    fuse ⟨[("E", 0.8), ("S", 0.8), ("G", 0.8)], some (0.5, 0.5, 0.5),
          some (0.5, 0.5, 0.5)⟩ = (0.65, 0.65, 0.65) := by
  refine ⟨by norm_num [SUSTAIN_WEIGHT, NEWS_WEIGHT, FILINGS_WEIGHT], ?_, ?_, ?_⟩
  · simp [fuse, sustainGet_cons, sustainGet_nil, SUSTAIN_WEIGHT, NEWS_WEIGHT, FILINGS_WEIGHT]
  · intro k hk hnot
    fin_cases hk <;>
      simp [fuse, sustainGet_cons, sustainGet_not_mem hnot]
  · simp [fuse, sustainGet_cons, sustainGet_nil, SUSTAIN_WEIGHT, NEWS_WEIGHT, FILINGS_WEIGHT]
    norm_num

/-- Witness for C1: weights sum to 1; a bundle without the "E"
sustainability field fuses like the same bundle with "E" = 0.5; the
scenario bundle fuses to 0.65 on every pillar. -/
theorem fuse_weighted_sum_witness :
    SUSTAIN_WEIGHT + NEWS_WEIGHT + FILINGS_WEIGHT = 1 ∧
    fuse ⟨[("S", 0.3)], some (0.5, 0.5, 0.5), some (0.5, 0.5, 0.5)⟩ =
      fuse ⟨("E", 0.5) :: [("S", 0.3)], some (0.5, 0.5, 0.5), some (0.5, 0.5, 0.5)⟩ ∧
    fuse ⟨[("E", 0.8), ("S", 0.8), ("G", 0.8)], some (0.5, 0.5, 0.5),
          some (0.5, 0.5, 0.5)⟩ = (0.65, 0.65, 0.65) :=
  ⟨(fuse_weighted_sum 0 0 0 (0, 0, 0) (0, 0, 0) []).1,
   (fuse_weighted_sum 0 0 0 (0.5, 0.5, 0.5) (0.5, 0.5, 0.5) [("S", 0.3)]).2.2.1
     "E" (by simp) (by simp),
   (fuse_weighted_sum 0 0 0 (0, 0, 0) (0, 0, 0) []).2.2.2⟩

/-- Claim C2: for a non-empty batch of fused scores of one pillar, the
peer-normalized outputs attain 0 and 1 and all lie in [0,1], except when
all fused inputs are identical (including the single-ticker batch), in
which case every normalized value is 0.5. -/
theorem peer_normalize_range (vs : List ℚ) (hne : vs ≠ []) :
    ((∃ c, ∀ v ∈ vs, v = c) → normalizePillar vs = vs.map (fun _ => 0.5)) ∧
    (¬(∃ c, ∀ v ∈ vs, v = c) →
      (0 : ℚ) ∈ normalizePillar vs ∧ (1 : ℚ) ∈ normalizePillar vs ∧
      ∀ y ∈ normalizePillar vs, 0 ≤ y ∧ y ≤ 1) := by
  constructor
  · rintro ⟨c, hc⟩
    have hmin : listMin vs = c := hc _ (listMin_mem hne)
    have hmax : listMax vs = c := hc _ (listMax_mem hne)
    unfold normalizePillar
    apply List.map_congr_left
    intro v _
    rw [hmin, hmax, norm01, if_pos (le_refl c)]
  · intro hvar
    have hlt : listMin vs < listMax vs := by
      rcases lt_or_ge (listMin vs) (listMax vs) with h | h
      · exact h
      · exfalso
        apply hvar
        refine ⟨listMin vs, fun v hv => le_antisymm ?_ (listMin_le hv)⟩
        exact le_trans (le_listMax hv) h
    have hne01 : listMax vs - listMin vs ≠ 0 := ne_of_gt (sub_pos.2 hlt)
    have hnorm : ∀ v, norm01 v (listMin vs) (listMax vs) =
        (v - listMin vs) / (listMax vs - listMin vs) := by
      intro v
      rw [norm01, if_neg (not_le.2 hlt)]
    refine ⟨?_, ?_, ?_⟩
    · exact List.mem_map.2 ⟨listMin vs, listMin_mem hne,
        by rw [hnorm, sub_self, zero_div]⟩
    · exact List.mem_map.2 ⟨listMax vs, listMax_mem hne,
        by rw [hnorm, div_self hne01]⟩
    · intro y hy
      rcases List.mem_map.1 hy with ⟨v, hv, rfl⟩
      rw [hnorm]
      constructor
      · exact div_nonneg (sub_nonneg.2 (listMin_le hv)) (le_of_lt (sub_pos.2 hlt))
      · rw [div_le_one (sub_pos.2 hlt)]
        exact sub_le_sub_right (le_listMax hv) _

/-- Witness for C2: the single-ticker batch [0.7] normalizes to [0.5],
and the two-ticker batch [0.4, 0.8] attains 0 and 1 with all outputs in
[0,1] (Scenario B of the spec). -/
theorem peer_normalize_range_witness :
    normalizePillar [0.7] = [0.5] ∧
    ((0 : ℚ) ∈ normalizePillar [0.4, 0.8] ∧ (1 : ℚ) ∈ normalizePillar [0.4, 0.8] ∧
      ∀ y ∈ normalizePillar [0.4, 0.8], 0 ≤ y ∧ y ≤ 1) := by
  constructor
  · have h := (peer_normalize_range [0.7] (by simp)).1 ⟨0.7, by simp⟩
    simpa using h
  · refine (peer_normalize_range [0.4, 0.8] (by simp)).2 ?_
    rintro ⟨c, hc⟩
    have h4 : (0.4 : ℚ) = c := hc 0.4 (by simp)
    have h8 : (0.8 : ℚ) = c := hc 0.8 (by simp)
    rw [← h4] at h8
    norm_num at h8

theorem getD_map (f : ℚ → ℚ) (l : List ℚ) (i : ℕ) (d : ℚ) (hi : i < l.length) :
    (l.map f).getD i d = f (l.getD i d) := by
  induction l generalizing i with
  | nil => cases hi
  | cons a t ih =>
    cases i with
    | zero => rfl
    | succ j => exact ih j (Nat.lt_of_succ_lt_succ hi)

/-- Claim C4 (against the spec-modelled cleaning, since the solver and
`clean_weights` live in the third-party pypfopt library): for a cleaned
weight vector from a long-only solve in which some raw weight reaches the
epsilon threshold, every raw entry below epsilon maps to zero, the
cleaned weights sum exactly to 1 (hence within 1e-6), every cleaned
weight is non-negative (hence at least -1e-9), and the length is
preserved. -/
theorem clean_weights_invariants (eps : ℚ) (w : List ℚ)
    (heps : 0 < eps)
    (hnn : ∀ x ∈ w, 0 ≤ x)
    (hbig : ∃ x ∈ w, eps ≤ x) :
    (clean_weights eps w).sum = 1 ∧
    (∀ y ∈ clean_weights eps w, 0 ≤ y) ∧
    (clean_weights eps w).length = w.length ∧
    (∀ i : ℕ, i < w.length → w.getD i 0 < eps → (clean_weights eps w).getD i 0 = 0) := by
  set f : ℚ → ℚ := fun x => if x < eps then 0 else x with hf
  set z := w.map f with hz
  have hznn : ∀ x ∈ z, 0 ≤ x := by
    intro x hx
    rcases List.mem_map.1 hx with ⟨a, ha, rfl⟩
    by_cases hlt : a < eps
    · simp [hf, hlt]
    · simpa [hf, hlt] using hnn a ha
  have hspos : 0 < z.sum := by
    rcases hbig with ⟨x, hx, hex⟩
    have hxz : x ∈ z := by
      refine List.mem_map.2 ⟨x, hx, ?_⟩
      simp [hf, not_lt.2 hex]
    calc (0 : ℚ) < eps := heps
      _ ≤ x := hex
      _ ≤ z.sum := List.single_le_sum hznn x hxz
  have hcw : clean_weights eps w = z.map (fun x => x / z.sum) := by
    unfold clean_weights
    rw [← hf, ← hz, if_neg (ne_of_gt hspos)]
  refine ⟨?_, ?_, ?_, ?_⟩
  · rw [hcw, sum_map_div, div_self (ne_of_gt hspos)]
  · intro y hy
    rw [hcw] at hy
    rcases List.mem_map.1 hy with ⟨x, hx, rfl⟩
    exact div_nonneg (hznn x hx) (le_of_lt hspos)
  · rw [hcw, List.length_map, hz, List.length_map]
  · intro i hi hlt
    have hiz : i < z.length := by rw [hz, List.length_map]; exact hi
    have h1 : (clean_weights eps w).getD i 0 = z.getD i 0 / z.sum := by
      rw [hcw]
      exact getD_map (fun x => x / z.sum) z i 0 hiz
    have h2 : z.getD i 0 = f (w.getD i 0) := by
      rw [hz]
      exact getD_map f w i 0 hi
    rw [h1, h2, hf]
    show (if w.getD i 0 < eps then (0 : ℚ) else w.getD i 0) / z.sum = 0
    rw [if_pos hlt, zero_div]

/-- Witness for C4: cleaning [1/20000, 1/2, 1/2] with eps = 1/10000 zeroes
the first entry and the result sums to 1. -/
theorem clean_weights_invariants_witness :
    (clean_weights (1/10000) [1/20000, 1/2, 1/2]).sum = 1 ∧
    (clean_weights (1/10000) [1/20000, 1/2, 1/2]).getD 0 0 = 0 := by
  have h := clean_weights_invariants (1/10000) [1/20000, 1/2, 1/2]
    (by norm_num)
    (by intro x hx; fin_cases hx <;> norm_num)
    ⟨1/2, by simp, by norm_num⟩
  exact ⟨h.1, h.2.2.2 0 (by norm_num) (by norm_num [List.getD])⟩

/-- Claim C6 (against the spec-modelled estimator, since the estimation
is performed by pypfopt library calls whose code is not in this
repository): estimation fails with InsufficientDataError exactly when
some requested ticker has fewer than 2 price observations or the date
ranges of the tickers do not overlap; in particular the single-ticker
batch whose series has one observation fails with
InsufficientDataError (Scenario C of the spec). -/
theorem estimate_insufficient_data (series : List TickerSeries) :
    (estimate series = .error .insufficientData ↔
      ((∃ s ∈ series, s.dates.length < 2) ∨ overlapOk series = false)) ∧
    estimate [⟨"A", [0], [100]⟩] = .error .insufficientData := by
  constructor
  · by_cases h1 : series.any (fun s => s.dates.length < 2) = true
    · constructor
      · intro _
        left
        obtain ⟨s, hs, hlt⟩ := List.any_eq_true.1 h1
        exact ⟨s, hs, by simpa using hlt⟩
      · intro _
        simp only [estimate, h1, if_true]
    · have h1f : series.any (fun s => s.dates.length < 2) = false :=
        Bool.not_eq_true _ ▸ h1
      by_cases h2 : overlapOk series = true
      · constructor
        · intro hE
          exfalso
          simp only [estimate, h1f, Bool.false_eq_true, if_false, h2,
            Bool.not_true, if_neg] at hE
          cases hE
        · intro hR
          rcases hR with ⟨s, hs, hlt⟩ | hov
          · exfalso
            have hall := List.any_eq_false.1 h1f s hs
            simp at hall
            omega
          · rw [h2] at hov
            cases hov
      · have h2f : overlapOk series = false := Bool.not_eq_true _ ▸ h2
        constructor
        · intro _
          exact Or.inr h2f
        · intro _
          simp only [estimate, h1f, Bool.false_eq_true, if_false, h2f,
            Bool.not_false, if_true]
  · simp [estimate]

theorem newsAccum_foldl (l : List NewsItem) (a b c d : ℝ) :
    l.foldl newsStep (a, b, c, d) =
      (a + (l.map (fun i => decay_weight i.age * i.e)).sum,
       b + (l.map (fun i => decay_weight i.age * i.s)).sum,
       c + (l.map (fun i => decay_weight i.age * i.g)).sum,
       d + (l.map (fun i => decay_weight i.age)).sum) := by
  induction l generalizing a b c d with
  | nil => simp
  | cons x t ih =>
    rw [List.foldl_cons, newsStep, ih]
    simp only [List.map_cons, List.sum_cons, Prod.mk.injEq]
    refine ⟨by ring, by ring, by ring, by ring⟩

theorem newsAccum_eq (l : List NewsItem) :
    newsAccum l =
      ((l.map (fun i => decay_weight i.age * i.e)).sum,
       (l.map (fun i => decay_weight i.age * i.s)).sum,
       (l.map (fun i => decay_weight i.age * i.g)).sum,
       (l.map (fun i => decay_weight i.age)).sum) := by
  unfold newsAccum
  rw [newsAccum_foldl]
  simp

theorem decay_weight_pos (a : ℝ) : 0 < decay_weight a := by
  unfold decay_weight
  exact Real.exp_pos _

/-- Claim C7: the per-ticker news pillar triple is the decay-weighted
average of the per-headline bucket scores over at most the 40 most recent
headlines; each weight is exp(-age/21) with negative ages clamped to zero
(so a non-positive age gives weight exp(0) = 1); with no headlines, or a
zero total weight, the result is the neutral triple; and the total weight
of a non-empty list is in fact always positive. -/
theorem news_weighted_average (news : List NewsItem) :
    (news = [] → fetch_news_esg news = (0.5, 0.5, 0.5)) ∧
    (newsWeightSum news = 0 → fetch_news_esg news = (0.5, 0.5, 0.5)) ∧
    (news ≠ [] → newsWeightSum news ≠ 0 →
      fetch_news_esg news =
        (newsWeighted (fun i => i.e) news / newsWeightSum news,
         newsWeighted (fun i => i.s) news / newsWeightSum news,
         newsWeighted (fun i => i.g) news / newsWeightSum news)) ∧
    (∀ a : ℝ, a ≤ 0 → decay_weight a = 1) ∧
    (news ≠ [] → 0 < newsWeightSum news) := by
  have hacc : newsAccum (news.take 40) =
      (newsWeighted (fun i => i.e) news, newsWeighted (fun i => i.s) news,
       newsWeighted (fun i => i.g) news, newsWeightSum news) := by
    rw [newsAccum_eq]
    rfl
  refine ⟨?_, ?_, ?_, ?_, ?_⟩
  · intro h
    subst h
    rfl
  · intro hw
    unfold fetch_news_esg
    by_cases hne : news.isEmpty
    · rw [if_pos hne]
    · rw [if_neg hne]
      simp [hacc, hw]
  · intro hne hw
    unfold fetch_news_esg
    rw [if_neg (by simpa [List.isEmpty_iff] using hne)]
    simp only [hacc]
    rw [if_neg hw]
  · intro a ha
    unfold decay_weight
    by_cases h : a < 0
    · simp [h]
    · have ha0 : a = 0 := le_antisymm ha (not_lt.1 h)
      simp [ha0]
  · intro hne
    unfold newsWeightSum
    apply List.sum_pos
    · intro x hx
      rcases List.mem_map.1 hx with ⟨i, _, rfl⟩
      exact decay_weight_pos i.age
    · match news, hne with
      | x :: t, _ => simp

/-- Witness for C7 at a single fresh headline with bucket scores
(1, 0, 0) and age 0. -/
theorem news_weighted_average_witness :
    fetch_news_esg [⟨1, 0, 0, 0⟩] =
      (newsWeighted (fun i => i.e) [⟨1, 0, 0, 0⟩] / newsWeightSum [⟨1, 0, 0, 0⟩],
       newsWeighted (fun i => i.s) [⟨1, 0, 0, 0⟩] / newsWeightSum [⟨1, 0, 0, 0⟩],
       newsWeighted (fun i => i.g) [⟨1, 0, 0, 0⟩] / newsWeightSum [⟨1, 0, 0, 0⟩]) ∧
    decay_weight (-3) = 1 :=
  ⟨(news_weighted_average [⟨1, 0, 0, 0⟩]).2.2.1 (List.cons_ne_nil _ _)
     (ne_of_gt ((news_weighted_average [⟨1, 0, 0, 0⟩]).2.2.2.2 (List.cons_ne_nil _ _))),
   (news_weighted_average []).2.2.2.1 (-3) (by norm_num)⟩

/-- Claim C9 counterexample: for the fragment "markets rallied today"
(matching no vocabulary) with compound sentiment 1 (mapped sentiment
s01 = 1), the code contributes 0.33 * s01 = 0.33 to each pillar, which
is not (1/3) * s01 as the claim states. -/
theorem headline_diffuse_counterexample :
    headline_to_bucket_scores "markets rallied today" 1 = (0.33, 0.33, 0.33) ∧
    headline_to_bucket_scores "markets rallied today" 1 ≠
      ((1 : ℚ)/3 * 1, (1 : ℚ)/3 * 1, (1 : ℚ)/3 * 1) := by
  have hE : E_KEYWORDS.any (fun k => containsKw (lowerChars "markets rallied today") k)
      = false := by decide
  have hS : S_KEYWORDS.any (fun k => containsKw (lowerChars "markets rallied today") k)
      = false := by decide
  have hG : G_KEYWORDS.any (fun k => containsKw (lowerChars "markets rallied today") k)
      = false := by decide
  have hval : headline_to_bucket_scores "markets rallied today" 1 = (0.33, 0.33, 0.33) := by
    simp only [headline_to_bucket_scores, hE, hS, hG]
    norm_num
  refine ⟨hval, ?_⟩
  rw [hval]
  intro hcon
  rw [Prod.ext_iff] at hcon
  have := hcon.1
  norm_num at this

/-- Claim C9 (amended): a fragment matching none of the E/S/G
vocabularies contributes to each pillar the equal diffuse value
0.33 (not 1/3) times the sentiment mapped to [0,1], and that contribution
is positive (hence nonzero) whenever the compound sentiment is strictly
above -1. -/
theorem headline_diffuse_scaled (h : String) (sent : ℚ)
    (hmatch : ∀ k ∈ E_KEYWORDS ++ S_KEYWORDS ++ G_KEYWORDS,
      containsKw (lowerChars h) k = false) :
    headline_to_bucket_scores h sent =
      (0.33 * ((sent + 1) / 2), 0.33 * ((sent + 1) / 2), 0.33 * ((sent + 1) / 2)) ∧
    (-1 < sent → 0 < 0.33 * ((sent + 1) / 2)) := by
  have hE : E_KEYWORDS.any (fun k => containsKw (lowerChars h) k) = false := by
    rw [List.any_eq_false]
    intro k hk
    simp [hmatch k (List.mem_append.2 (Or.inl (List.mem_append.2 (Or.inl hk))))]
  have hS : S_KEYWORDS.any (fun k => containsKw (lowerChars h) k) = false := by
    rw [List.any_eq_false]
    intro k hk
    simp [hmatch k (List.mem_append.2 (Or.inl (List.mem_append.2 (Or.inr hk))))]
  have hG : G_KEYWORDS.any (fun k => containsKw (lowerChars h) k) = false := by
    rw [List.any_eq_false]
    intro k hk
    simp [hmatch k (List.mem_append.2 (Or.inr hk))]
  constructor
  · simp only [headline_to_bucket_scores, hE, hS, hG]
    norm_num
  · intro hgt
    have h2 : 0 < (sent + 1) / 2 := by linarith
    have h3 : (0 : ℚ) < 0.33 := by norm_num
    exact mul_pos h3 h2

/-- Witness for C9 (amended) at the fragment "markets rallied today"
with compound sentiment 0. -/
theorem headline_diffuse_scaled_witness :
    headline_to_bucket_scores "markets rallied today" 0 =
      (0.33 * ((0 + 1) / 2), 0.33 * ((0 + 1) / 2), 0.33 * ((0 + 1) / 2)) ∧
    (0 : ℚ) < 0.33 * ((0 + 1) / 2) :=
  ⟨(headline_diffuse_scaled "markets rallied today" 0 (by decide)).1,
   (headline_diffuse_scaled "markets rallied today" 0 (by decide)).2 (by norm_num)⟩
